import Mathlib

/-!
Shallow embedding of `hw/mcu/atmel/samd21xx/src/hal_gpio.c` from the
`mynewt_sodaq_autonomo` board-support repository, together with theorems
settling the specification claims about it.

Modelling conventions:
* C `int` is embedded as `Int`.  C integer division and remainder truncate
  toward zero, so `pin/32` and `pin % 32` are embedded as `Int.tdiv` and
  `Int.tmod`.
* Bitwise operations on `int` operate on the 32-bit two's-complement
  representation; `toN32` maps an `Int` to that representation as a `Nat`
  bit pattern, and masks are kept as `Nat` bit patterns.
* The vendor port driver (`port.h` of the Atmel Software Framework) and the
  Mynewt `hal/hal_gpio.h` header are not part of the repository; their
  constants and the driver's behaviour are modelled from the spec, which
  describes the driver as addressing a pin `p` at port `p/32`, pin `p % 32`,
  with output direction supporting readback.
* Every HAL function returns a `StepResult`: `ret = some r` is a normal
  return with value `r` (a `void` function returns `some 0`), `ret = none`
  means the call did not return normally (a failed `assert`, or an
  out-of-bounds read of `valid_pins`, which is undefined behaviour in C).
  `state` is the port/hardware state when the function stopped and `trace`
  the list of port-driver calls it issued, in order.
-/

/-- Embedding of the C macro `GPIO_PORT(pin) = pin/32` (C division truncates
toward zero, hence `Int.tdiv`). -/
def GPIO_PORT (pin : Int) : Int := Int.tdiv pin 32

/-- Embedding of the C macro `GPIO_PIN(pin) = pin % 32` (C remainder truncates
toward zero, hence `Int.tmod`). -/
def GPIO_PIN (pin : Int) : Int := Int.tmod pin 32

/-- Embedding of the C constant `GPIO_MAX_PORT = 1`. -/
def GPIO_MAX_PORT : Int := 1

/-- Embedding of the C table `int valid_pins[GPIO_MAX_PORT + 1]`, the
per-port bitmasks of physically valid pins, kept as 32-bit patterns. -/
def valid_pins : List Nat := [0xdbffffff, 0xc0000f0c]

/-- Total model of a C array read `a[i]`: defined exactly for indices inside
the array, `none` models the undefined behaviour of an out-of-bounds read. -/
def arrayGet (a : List Nat) (i : Int) : Option Nat :=
  if h : 0 ≤ i ∧ i.toNat < a.length then some (a.get ⟨i.toNat, h.2⟩) else none

/-- Two's-complement 32-bit pattern of a C `int` value. -/
def toN32 (x : Int) : Nat := (x % (4294967296 : Int)).toNat

/-- Bit pattern of the C expression `1 << n` on 32-bit `int`.  For
`0 ≤ n < 32` this is `2 ^ n`; any other shift amount is undefined behaviour
in C, modelled as `0` (which is also what Cortex-M hardware shifts by more
than 31 produce), so that an assertion testing the result fails. -/
def shl1_32 (n : Int) : Nat := if 0 ≤ n ∧ n < 32 then 2 ^ n.toNat else 0

/-- Modelled from the spec: the Mynewt HAL pull constants from
`hal/hal_gpio.h` (not part of this repository): `GPIO_PULL_NONE = 0`. -/
def GPIO_PULL_NONE : Int := 0

/-- Modelled from the spec: `GPIO_PULL_UP = 1` from `hal/hal_gpio.h`. -/
def GPIO_PULL_UP : Int := 1

/-- Modelled from the spec: `GPIO_PULL_DOWN = 2` from `hal/hal_gpio.h`. -/
def GPIO_PULL_DOWN : Int := 2

/-- Modelled from the spec: the vendor port-driver pull constant
`PORT_PIN_PULL_NONE = 0` from `port.h` (not part of this repository). -/
def PORT_PIN_PULL_NONE : Int := 0

/-- Modelled from the spec: `PORT_PIN_PULL_UP = 1` from `port.h`. -/
def PORT_PIN_PULL_UP : Int := 1

/-- Modelled from the spec: `PORT_PIN_PULL_DOWN = 2` from `port.h`. -/
def PORT_PIN_PULL_DOWN : Int := 2

/-- Modelled from the spec: `SYSTEM_PINMUX_PIN_PULL_NONE = 0` from the
vendor pinmux header (not part of this repository). -/
def SYSTEM_PINMUX_PIN_PULL_NONE : Int := 0

/-- Modelled from the spec: vendor direction constant `PORT_PIN_DIR_INPUT`. -/
def PORT_PIN_DIR_INPUT : Int := 0

/-- Modelled from the spec: vendor direction constant
`PORT_PIN_DIR_OUTPUT_WTH_READBACK`. -/
def PORT_PIN_DIR_OUTPUT_WTH_READBACK : Int := 2

/-- Embedding of the C `struct port_config` fields written by this file. -/
structure port_config where
  direction : Int
  input_pull : Int
  powersave : Bool
deriving DecidableEq

/-- Modelled from the spec: the port/hardware state kept by the vendor port
driver, addressed by (port, pin-within-port) pairs: each pin has an output
level (with readback) and, once configured, a configuration. -/
structure GpioState where
  level : Int × Int → Bool
  config : Int × Int → Option port_config

/-- One call into the vendor port driver, with the pin argument the HAL
passed to it. -/
inductive PortCall where
  | setConfig : Int → port_config → PortCall
  | setLevel : Int → Bool → PortCall
  | getLevel : Int → PortCall
deriving DecidableEq

/-- The pin argument of a port-driver call. -/
def callPin : PortCall → Int
  | .setConfig p _ => p
  | .setLevel p _ => p
  | .getLevel p => p

/-- Modelled from the spec: `port_pin_set_config(pin, cfg)` records the
configuration of the pin addressed at port `pin/32`, pin `pin % 32`. -/
def port_pin_set_config (pin : Int) (cfg : port_config) (s : GpioState) : GpioState :=
  { s with config := Function.update s.config (GPIO_PORT pin, GPIO_PIN pin) (some cfg) }

/-- Modelled from the spec: `port_pin_set_output_level(pin, level)` drives
the output level of the pin addressed at port `pin/32`, pin `pin % 32`. -/
def port_pin_set_output_level (pin : Int) (lvl : Bool) (s : GpioState) : GpioState :=
  { s with level := Function.update s.level (GPIO_PORT pin, GPIO_PIN pin) lvl }

/-- Modelled from the spec: `port_pin_get_input_level(pin)` reads back the
level of the pin addressed at port `pin/32`, pin `pin % 32`. -/
def port_pin_get_input_level (pin : Int) (s : GpioState) : Bool :=
  s.level (GPIO_PORT pin, GPIO_PIN pin)

/-- Result of one embedded HAL call: return value (`none` when the call does
not return normally: failed `assert` or undefined behaviour), port/hardware
state when the function stopped, and the port-driver calls issued. -/
structure StepResult where
  ret : Option Int
  state : GpioState
  trace : List PortCall

/-- Embedding of `hal_gpio_set`: asserts `port <= GPIO_MAX_PORT` and
`((1 << port_pin) & valid_pins[port]) != 0`, then drives the pin high.
The C function returns `void`; normal return is encoded as `some 0`. -/
def hal_gpio_set (pin : Int) (s : GpioState) : StepResult :=
  let port := GPIO_PORT pin
  let port_pin := GPIO_PIN pin
  if port ≤ GPIO_MAX_PORT then
    match arrayGet valid_pins port with
    | some m =>
      if shl1_32 port_pin &&& m ≠ 0 then
        { ret := some 0, state := port_pin_set_output_level pin true s,
          trace := [PortCall.setLevel pin true] }
      else { ret := none, state := s, trace := [] }
    | none => { ret := none, state := s, trace := [] }
  else { ret := none, state := s, trace := [] }

/-- Embedding of `hal_gpio_clear`: same assertions as `hal_gpio_set`, then
drives the pin low. -/
def hal_gpio_clear (pin : Int) (s : GpioState) : StepResult :=
  let port := GPIO_PORT pin
  let port_pin := GPIO_PIN pin
  if port ≤ GPIO_MAX_PORT then
    match arrayGet valid_pins port with
    | some m =>
      if shl1_32 port_pin &&& m ≠ 0 then
        { ret := some 0, state := port_pin_set_output_level pin false s,
          trace := [PortCall.setLevel pin false] }
      else { ret := none, state := s, trace := [] }
    | none => { ret := none, state := s, trace := [] }
  else { ret := none, state := s, trace := [] }

/-- Embedding of `hal_gpio_read`: same assertions, then returns the pin's
input level as `0` or `1` via `port_pin_get_input_level`. -/
def hal_gpio_read (pin : Int) (s : GpioState) : StepResult :=
  let port := GPIO_PORT pin
  let port_pin := GPIO_PIN pin
  if port ≤ GPIO_MAX_PORT then
    match arrayGet valid_pins port with
    | some m =>
      if shl1_32 port_pin &&& m ≠ 0 then
        { ret := some (if port_pin_get_input_level pin s then 1 else 0),
          state := s, trace := [PortCall.getLevel pin] }
      else { ret := none, state := s, trace := [] }
    | none => { ret := none, state := s, trace := [] }
  else { ret := none, state := s, trace := [] }

/-- Embedding of `hal_gpio_write`: `if (val) hal_gpio_set(pin) else
hal_gpio_clear(pin)`. -/
def hal_gpio_write (pin val : Int) (s : GpioState) : StepResult :=
  if val ≠ 0 then hal_gpio_set pin s else hal_gpio_clear pin s

/-- Embedding of `hal_gpio_toggle`: reads the pin, clears it when the read
was nonzero and sets it otherwise, then returns a fresh read of the pin. -/
def hal_gpio_toggle (pin : Int) (s : GpioState) : StepResult :=
  let r1 := hal_gpio_read pin s
  match r1.ret with
  | none => { ret := none, state := r1.state, trace := r1.trace }
  | some v =>
    let r2 := if v ≠ 0 then hal_gpio_clear pin r1.state else hal_gpio_set pin r1.state
    match r2.ret with
    | none => { ret := none, state := r2.state, trace := r1.trace ++ r2.trace }
    | some _ =>
      let r3 := hal_gpio_read pin r2.state
      { ret := r3.ret, state := r3.state, trace := r1.trace ++ r2.trace ++ r3.trace }

/-- Embedding of `hal_gpio_init_out`.  Note that the C validity check is
`(port_pin & valid_pins[port]) == 0`: it ANDs the pin-within-port *number*
(not the bit `1 << port_pin`) with the mask, which the embedding reproduces
faithfully via `toN32 port_pin` (the `int` value's 32-bit pattern). -/
def hal_gpio_init_out (pin val : Int) (s : GpioState) : StepResult :=
  let port := GPIO_PORT pin
  let port_pin := GPIO_PIN pin
  if port > GPIO_MAX_PORT then { ret := some (-1), state := s, trace := [] }
  else
    match arrayGet valid_pins port with
    | none => { ret := none, state := s, trace := [] }
    | some m =>
      if toN32 port_pin &&& m = 0 then { ret := some (-1), state := s, trace := [] }
      else
        let cfg : port_config :=
          { direction := PORT_PIN_DIR_OUTPUT_WTH_READBACK,
            input_pull := SYSTEM_PINMUX_PIN_PULL_NONE, powersave := false }
        let s1 := port_pin_set_config pin cfg s
        let r := if val ≠ 0 then hal_gpio_set pin s1 else hal_gpio_clear pin s1
        match r.ret with
        | none => { ret := none, state := r.state, trace := PortCall.setConfig pin cfg :: r.trace }
        | some _ => { ret := some 0, state := r.state, trace := PortCall.setConfig pin cfg :: r.trace }

/-- Embedding of `hal_gpio_init_in`.  It has the same
`(port_pin & valid_pins[port]) == 0` validity check as `hal_gpio_init_out`,
and its `switch(pull)` assigns `cfg.input_pull = PORT_PIN_PULL_NONE` in the
`GPIO_PULL_NONE` case but the HAL constants `GPIO_PULL_UP` / `GPIO_PULL_DOWN`
themselves in the other two cases, exactly as the C source does. -/
def hal_gpio_init_in (pin pull : Int) (s : GpioState) : StepResult :=
  let port := GPIO_PORT pin
  let port_pin := GPIO_PIN pin
  if port > GPIO_MAX_PORT then { ret := some (-1), state := s, trace := [] }
  else
    match arrayGet valid_pins port with
    | none => { ret := none, state := s, trace := [] }
    | some m =>
      if toN32 port_pin &&& m = 0 then { ret := some (-1), state := s, trace := [] }
      else
        let ip : Option Int :=
          if pull = GPIO_PULL_NONE then some PORT_PIN_PULL_NONE
          else if pull = GPIO_PULL_UP then some GPIO_PULL_UP
          else if pull = GPIO_PULL_DOWN then some GPIO_PULL_DOWN
          else none
        match ip with
        | none => { ret := some (-1), state := s, trace := [] }
        | some p =>
          let cfg : port_config :=
            { direction := PORT_PIN_DIR_INPUT, input_pull := p, powersave := false }
          { ret := some 0, state := port_pin_set_config pin cfg s,
            trace := [PortCall.setConfig pin cfg] }

/-- Decidable form of "pin is a valid pin index for its port": the entry
`valid_pins[pin/32]` exists and its bit `pin % 32` is set.  For a pin whose
`pin % 32` is negative the 32-bit pattern of the index is at least `2 ^ 32 - 31`,
far beyond the width of the mask, so the bit test is false, which matches the
reading that no bit of the mask corresponds to such a pin. -/
def validPinB (pin : Int) : Bool :=
  match arrayGet valid_pins (GPIO_PORT pin) with
  | some m => Nat.testBit m (toN32 (GPIO_PIN pin))
  | none => false

/-- The predicate "pin is a valid pin index for its port". -/
def validPin (pin : Int) : Prop := validPinB pin = true

instance (pin : Int) : Decidable (validPin pin) := by
  unfold validPin
  infer_instance

/-- A concrete power-on state: every pin low, nothing configured. -/
def initState : GpioState := { level := fun _ => false, config := fun _ => none }

/-- The condition the two assertions of `hal_gpio_set`, `hal_gpio_clear` and
`hal_gpio_read` jointly test, as a boolean. -/
def assertOkB (pin : Int) : Bool :=
  decide (GPIO_PORT pin ≤ GPIO_MAX_PORT) &&
    match arrayGet valid_pins (GPIO_PORT pin) with
    | some m => decide (shl1_32 (GPIO_PIN pin) &&& m ≠ 0)
    | none => false

/-- The `port_config` that `hal_gpio_init_out` builds. -/
def outCfg : port_config :=
  { direction := PORT_PIN_DIR_OUTPUT_WTH_READBACK,
    input_pull := SYSTEM_PINMUX_PIN_PULL_NONE, powersave := false }

/-- The `port_config` that `hal_gpio_init_in` builds for a driver pull
value `p`. -/
def inCfg (p : Int) : port_config :=
  { direction := PORT_PIN_DIR_INPUT, input_pull := p, powersave := false }

/-- The result `r` of a HAL call on `pin` is addressed through the translated
(port, pin-within-port) pair: every port-driver call it issued carries `pin`
(which the driver model addresses at `(pin/32, pin % 32)`), and no other
pin's state changed. -/
def addressedTo (r : StepResult) (pin : Int) (s : GpioState) : Prop :=
  (∀ c ∈ r.trace, callPin c = pin) ∧
  (∀ k, k ≠ (GPIO_PORT pin, GPIO_PIN pin) →
    r.state.level k = s.level k ∧ r.state.config k = s.config k)


/-! ### Helper lemmas -/

/-- Closed form of the `valid_pins` array read. -/
lemma arrayGet_valid_pins (i : Int) :
    arrayGet valid_pins i =
      if i = 0 then some 0xdbffffff else if i = 1 then some 0xc0000f0c else none := by
  by_cases h0 : i = 0
  · subst h0; decide
  · by_cases h1 : i = 1
    · subst h1; simp [h0]; decide
    · rw [if_neg h0, if_neg h1]
      unfold arrayGet valid_pins
      rw [dif_neg]
      simp only [List.length]
      omega

/-- Truncating remainder negates with its first argument. -/
lemma tmod_neg_left (a b : Int) : Int.tmod (-a) b = -(Int.tmod a b) := by
  rw [Int.tmod_def, Int.tmod_def, Int.neg_tdiv]
  ring

/-- Bounds of the truncating remainder by 32. -/
lemma tmod_32_bounds (a : Int) : -32 < Int.tmod a 32 ∧ Int.tmod a 32 < 32 := by
  rcases le_or_lt 0 a with h | h
  · have h1 := Int.tmod_nonneg 32 h
    have h2 := Int.tmod_lt_of_pos a (b := 32) (by norm_num)
    omega
  · have hn : (0 : Int) ≤ -a := by omega
    have h1 := Int.tmod_nonneg 32 hn
    have h2 := Int.tmod_lt_of_pos (-a) (b := 32) (by norm_num)
    have h3 : Int.tmod a 32 = -(Int.tmod (-a) 32) := by
      rw [← tmod_neg_left, Int.neg_neg]
    omega

/-- The truncating division/remainder identity specialised to 32. -/
lemma tdiv_tmod_32 (a : Int) : 32 * Int.tdiv a 32 + Int.tmod a 32 = a :=
  Int.tdiv_add_tmod a 32

/-- Bit indices produced by `toN32` from a value in `(-32, 32)` can only hit
a mask below `2 ^ 32` when the value is nonnegative, in which case the index
is the value itself. -/
lemma testBit_toN32_small {m : Nat} {x : Int} (hm : m < 4294967296)
    (hx1 : -32 < x) (hx2 : x < 32) (h : Nat.testBit m (toN32 x) = true) :
    0 ≤ x ∧ toN32 x = x.toNat := by
  have hidx : toN32 x < 32 := by
    by_contra hge
    push_neg at hge
    have h32 : (4294967296 : Nat) ≤ 2 ^ toN32 x := by
      calc (4294967296 : Nat) = 2 ^ 32 := by norm_num
        _ ≤ 2 ^ toN32 x := Nat.pow_le_pow_right (by norm_num) hge
    rw [Nat.testBit_lt_two_pow (lt_of_lt_of_le hm h32)] at h
    exact Bool.noConfusion h
  unfold toN32 at hidx ⊢
  omega

/-- Elimination form of `validPin`: a valid pin is a nonnegative pin below 64
whose bit is set in the mask of its port. -/
lemma validPin_spec (pin : Int) (h : validPin pin) :
    0 ≤ pin ∧ pin < 64 ∧ 0 ≤ GPIO_PIN pin ∧ GPIO_PIN pin < 32 ∧
      toN32 (GPIO_PIN pin) = (GPIO_PIN pin).toNat ∧
      ((GPIO_PORT pin = 0 ∧ Nat.testBit 0xdbffffff (GPIO_PIN pin).toNat = true) ∨
       (GPIO_PORT pin = 1 ∧ Nat.testBit 0xc0000f0c (GPIO_PIN pin).toNat = true)) := by
  unfold validPin validPinB at h
  rw [arrayGet_valid_pins] at h
  have hmod := tmod_32_bounds pin
  have hdm := tdiv_tmod_32 pin
  have hPIN : GPIO_PIN pin = Int.tmod pin 32 := rfl
  have hPORT : GPIO_PORT pin = Int.tdiv pin 32 := rfl
  by_cases h0 : GPIO_PORT pin = 0
  · rw [if_pos h0] at h
    dsimp only at h
    obtain ⟨hpp, htn⟩ := testBit_toN32_small (by norm_num)
      (show -32 < GPIO_PIN pin by rw [hPIN]; exact hmod.1)
      (show GPIO_PIN pin < 32 by rw [hPIN]; exact hmod.2) h
    rw [htn] at h
    have h0t : Int.tdiv pin 32 = 0 := by rw [← hPORT]; exact h0
    have hppt : 0 ≤ Int.tmod pin 32 := by rw [← hPIN]; exact hpp
    refine ⟨by omega, by omega, hpp, by rw [hPIN]; omega, htn, Or.inl ⟨h0, h⟩⟩
  · by_cases h1 : GPIO_PORT pin = 1
    · rw [if_neg h0, if_pos h1] at h
      dsimp only at h
      obtain ⟨hpp, htn⟩ := testBit_toN32_small (by norm_num)
        (show -32 < GPIO_PIN pin by rw [hPIN]; exact hmod.1)
        (show GPIO_PIN pin < 32 by rw [hPIN]; exact hmod.2) h
      rw [htn] at h
      have h1t : Int.tdiv pin 32 = 1 := by rw [← hPORT]; exact h1
      have hppt : 0 ≤ Int.tmod pin 32 := by rw [← hPIN]; exact hpp
      refine ⟨by omega, by omega, hpp, by rw [hPIN]; omega, htn, Or.inr ⟨h1, h⟩⟩
    · rw [if_neg h0, if_neg h1] at h
      exact Bool.noConfusion h

/-- Case-collapsed form of `hal_gpio_set`: it either passes both assertions
and drives the pin high, or aborts leaving the state untouched. -/
lemma hal_gpio_set_eq (pin : Int) (s : GpioState) :
    hal_gpio_set pin s =
      if assertOkB pin then
        { ret := some 0, state := port_pin_set_output_level pin true s,
          trace := [PortCall.setLevel pin true] }
      else { ret := none, state := s, trace := [] } := by
  unfold hal_gpio_set assertOkB
  by_cases h1 : GPIO_PORT pin ≤ GPIO_MAX_PORT
  · rcases hm : arrayGet valid_pins (GPIO_PORT pin) with _ | m
    · simp [h1, hm]
    · by_cases h2 : shl1_32 (GPIO_PIN pin) &&& m ≠ 0
      · simp [h1, hm, h2]
      · simp [h1, hm, h2]
  · simp [h1]

/-- Case-collapsed form of `hal_gpio_clear`. -/
lemma hal_gpio_clear_eq (pin : Int) (s : GpioState) :
    hal_gpio_clear pin s =
      if assertOkB pin then
        { ret := some 0, state := port_pin_set_output_level pin false s,
          trace := [PortCall.setLevel pin false] }
      else { ret := none, state := s, trace := [] } := by
  unfold hal_gpio_clear assertOkB
  by_cases h1 : GPIO_PORT pin ≤ GPIO_MAX_PORT
  · rcases hm : arrayGet valid_pins (GPIO_PORT pin) with _ | m
    · simp [h1, hm]
    · by_cases h2 : shl1_32 (GPIO_PIN pin) &&& m ≠ 0
      · simp [h1, hm, h2]
      · simp [h1, hm, h2]
  · simp [h1]

/-- Case-collapsed form of `hal_gpio_read`. -/
lemma hal_gpio_read_eq (pin : Int) (s : GpioState) :
    hal_gpio_read pin s =
      if assertOkB pin then
        { ret := some (if port_pin_get_input_level pin s then 1 else 0),
          state := s, trace := [PortCall.getLevel pin] }
      else { ret := none, state := s, trace := [] } := by
  unfold hal_gpio_read assertOkB
  by_cases h1 : GPIO_PORT pin ≤ GPIO_MAX_PORT
  · rcases hm : arrayGet valid_pins (GPIO_PORT pin) with _ | m
    · simp [h1, hm]
    · by_cases h2 : shl1_32 (GPIO_PIN pin) &&& m ≠ 0
      · simp [h1, hm, h2]
      · simp [h1, hm, h2]
  · simp [h1]

/-- On a valid pin the assertions of `hal_gpio_set` / `hal_gpio_clear` /
`hal_gpio_read` hold. -/
lemma assertOkB_of_validPin (pin : Int) (h : validPin pin) : assertOkB pin = true := by
  obtain ⟨hp0, hp64, hpin0, hpin32, htn, hcase⟩ := validPin_spec pin h
  unfold assertOkB
  have hshl : shl1_32 (GPIO_PIN pin) = 2 ^ (GPIO_PIN pin).toNat := by
    unfold shl1_32
    rw [if_pos ⟨hpin0, hpin32⟩]
  rcases hcase with ⟨hport, hbit⟩ | ⟨hport, hbit⟩
  · have hma : arrayGet valid_pins (GPIO_PORT pin) = some 0xdbffffff := by
      rw [arrayGet_valid_pins, hport]
      simp
    rw [hma]
    have hland : shl1_32 (GPIO_PIN pin) &&& (0xdbffffff : Nat) ≠ 0 := by
      intro hz
      have hb : ((2 ^ (GPIO_PIN pin).toNat) &&& (0xdbffffff : Nat)).testBit (GPIO_PIN pin).toNat = false := by
        rw [← hshl, hz]
        exact Nat.zero_testBit _
      rw [Nat.testBit_and, Nat.testBit_two_pow_self, hbit] at hb
      exact Bool.noConfusion hb
    simp [hport, GPIO_MAX_PORT, hland]
  · have hma : arrayGet valid_pins (GPIO_PORT pin) = some 0xc0000f0c := by
      rw [arrayGet_valid_pins, hport]
      simp
    rw [hma]
    have hland : shl1_32 (GPIO_PIN pin) &&& (0xc0000f0c : Nat) ≠ 0 := by
      intro hz
      have hb : ((2 ^ (GPIO_PIN pin).toNat) &&& (0xc0000f0c : Nat)).testBit (GPIO_PIN pin).toNat = false := by
        rw [← hshl, hz]
        exact Nat.zero_testBit _
      rw [Nat.testBit_and, Nat.testBit_two_pow_self, hbit] at hb
      exact Bool.noConfusion hb
    simp [hport, GPIO_MAX_PORT, hland]

/-- Case-collapsed form of `hal_gpio_init_out`. -/
lemma hal_gpio_init_out_eq (pin val : Int) (s : GpioState) :
    hal_gpio_init_out pin val s =
      if GPIO_PORT pin > GPIO_MAX_PORT then { ret := some (-1), state := s, trace := [] }
      else
        match arrayGet valid_pins (GPIO_PORT pin) with
        | none => { ret := none, state := s, trace := [] }
        | some m =>
          if toN32 (GPIO_PIN pin) &&& m = 0 then { ret := some (-1), state := s, trace := [] }
          else
            if assertOkB pin then
              { ret := some 0,
                state := port_pin_set_output_level pin (if val = 0 then false else true)
                  (port_pin_set_config pin outCfg s),
                trace := [PortCall.setConfig pin outCfg,
                  PortCall.setLevel pin (if val = 0 then false else true)] }
            else
              { ret := none, state := port_pin_set_config pin outCfg s,
                trace := [PortCall.setConfig pin outCfg] } := by
  unfold hal_gpio_init_out
  by_cases hp : GPIO_PORT pin > GPIO_MAX_PORT
  · simp [hp]
  · rcases hm : arrayGet valid_pins (GPIO_PORT pin) with _ | m
    · simp [hp, hm]
    · by_cases hl : toN32 (GPIO_PIN pin) &&& m = 0
      · simp [hp, hm, hl]
      · by_cases hv : val = 0
        · by_cases ha : assertOkB pin
          · simp [hp, hm, hl, hv, hal_gpio_clear_eq, ha, outCfg]
          · simp [hp, hm, hl, hv, hal_gpio_clear_eq, ha, outCfg]
        · by_cases ha : assertOkB pin
          · simp [hp, hm, hl, hv, hal_gpio_set_eq, ha, outCfg]
          · simp [hp, hm, hl, hv, hal_gpio_set_eq, ha, outCfg]

/-! ### Claim theorems -/

/-- C1: the claim "hal_gpio_init_out returns -1 exactly when the pin is not a
valid pin index for its port (bit pin % 32 of valid_pins[pin/32] clear or
pin/32 > GPIO_MAX_PORT), and configures every valid pin returning 0" fails on
the code: the check ANDs the pin-within-port number, not its bit, with the
mask.  Pin 0 is valid (bit 0 of valid_pins[0] is set) yet the call returns -1
without configuring anything; pin 58 is invalid (bit 26 of valid_pins[1] is
clear) yet the call passes the check, issues the configuration call, and then
dies on the assertion inside hal_gpio_set instead of returning. -/
theorem hal_gpio_init_out_validity_check_is_wrong :
    validPin 0 ∧ (hal_gpio_init_out 0 1 initState).ret = some (-1) ∧
    (hal_gpio_init_out 0 1 initState).trace = [] ∧
    ¬ validPin 58 ∧ (hal_gpio_init_out 58 1 initState).ret = none ∧
    (hal_gpio_init_out 58 1 initState).trace ≠ [] := by
  refine ⟨by decide, by decide, by decide, by decide, by decide, by decide⟩

/-- C2: the claim "every exported GPIO function validates its pin before
delegating to the port driver, with invalid pins rejected by -1 or stopped by
an assertion before any port-driver call" fails on the code: for the invalid
pin 58 (bit 26 of valid_pins[1] is clear) hal_gpio_init_in passes the broken
check, issues a port_pin_set_config call, and returns 0; hal_gpio_init_out on
the same pin likewise issues port_pin_set_config before the assertion inside
hal_gpio_set aborts. -/
theorem hal_gpio_init_in_accepts_invalid_pin :
    ¬ validPin 58 ∧
    (hal_gpio_init_in 58 GPIO_PULL_NONE initState).ret = some 0 ∧
    (hal_gpio_init_in 58 GPIO_PULL_NONE initState).trace ≠ [] ∧
    (hal_gpio_init_out 58 1 initState).trace ≠ [] := by
  refine ⟨by decide, by decide, by decide, by decide⟩

/-- C3: the claim "for every valid pin hal_gpio_init_in configures the pin
and returns 0" fails on the code for the same reason as C1: the valid pin 0
is rejected with -1 and no port-driver call.  The rest of the claim does hold
where the code accepts: on pin 1 the pull mapping produces the driver pull
value equal to the requested one (the source assigns GPIO_PULL_UP, whose
value 1 coincides with PORT_PIN_PULL_UP), and an out-of-range pull value is
rejected with -1. -/
theorem hal_gpio_init_in_rejects_valid_pin_zero :
    validPin 0 ∧
    (hal_gpio_init_in 0 GPIO_PULL_NONE initState).ret = some (-1) ∧
    (hal_gpio_init_in 0 GPIO_PULL_NONE initState).trace = [] ∧
    (hal_gpio_init_in 1 GPIO_PULL_NONE initState).trace =
      [PortCall.setConfig 1 (inCfg PORT_PIN_PULL_NONE)] ∧
    (hal_gpio_init_in 1 GPIO_PULL_UP initState).trace =
      [PortCall.setConfig 1 (inCfg PORT_PIN_PULL_UP)] ∧
    (hal_gpio_init_in 1 GPIO_PULL_DOWN initState).trace =
      [PortCall.setConfig 1 (inCfg PORT_PIN_PULL_DOWN)] ∧
    (hal_gpio_init_in 1 GPIO_PULL_DOWN initState).ret = some 0 ∧
    (hal_gpio_init_in 1 5 initState).ret = some (-1) := by
  refine ⟨by decide, by decide, by decide, by decide, by decide, by decide, by decide, by decide⟩

/-- C5: on a valid pin (valid_pins entry exists and bit pin % 32 is set) the
assertion branches of hal_gpio_set, hal_gpio_clear and hal_gpio_read are not
taken: each call returns normally. -/
theorem valid_pin_operations_do_not_abort (pin : Int) (s : GpioState) (h : validPin pin) :
    (hal_gpio_set pin s).ret ≠ none ∧ (hal_gpio_clear pin s).ret ≠ none ∧
    (hal_gpio_read pin s).ret ≠ none := by
  have ha := assertOkB_of_validPin pin h
  rw [hal_gpio_set_eq, hal_gpio_clear_eq, hal_gpio_read_eq]
  simp [ha]

theorem valid_pin_operations_do_not_abort_witness :
    (hal_gpio_set 1 initState).ret ≠ none ∧ (hal_gpio_clear 1 initState).ret ≠ none ∧
    (hal_gpio_read 1 initState).ret ≠ none :=
  valid_pin_operations_do_not_abort 1 initState (by decide)

/-- C6: the pin-number encoding is port = pin/32 (truncating) and offset =
pin % 32: for nonnegative pins the offset lies in [0, 32), the pin is
recovered as 32 * port + offset, port 0 holds exactly pins 0-31 and port 1
exactly pins 32-63, and valid_pins has exactly the two per-port 32-bit
entries the validity checks read. -/
theorem pin_encoding_and_masks (pin : Int) (h : 0 ≤ pin) :
    GPIO_PORT pin = Int.tdiv pin 32 ∧ GPIO_PIN pin = Int.tmod pin 32 ∧
    0 ≤ GPIO_PIN pin ∧ GPIO_PIN pin < 32 ∧
    pin = 32 * GPIO_PORT pin + GPIO_PIN pin ∧
    (GPIO_PORT pin = 0 ↔ pin < 32) ∧
    (GPIO_PORT pin = 1 ↔ 32 ≤ pin ∧ pin < 64) ∧
    valid_pins.length = 2 ∧
    arrayGet valid_pins 0 = some 0xdbffffff ∧
    arrayGet valid_pins 1 = some 0xc0000f0c := by
  have hmod := tmod_32_bounds pin
  have hnn := Int.tmod_nonneg (a := pin) 32 h
  have hdm := tdiv_tmod_32 pin
  have hPIN : GPIO_PIN pin = Int.tmod pin 32 := rfl
  have hPORT : GPIO_PORT pin = Int.tdiv pin 32 := rfl
  refine ⟨rfl, rfl, ?_, ?_, ?_, ?_, ?_, by decide, by decide, by decide⟩
  · rw [hPIN]; omega
  · rw [hPIN]; omega
  · rw [hPORT, hPIN]; omega
  · rw [hPORT]; omega
  · rw [hPORT]; omega

theorem pin_encoding_and_masks_witness :
    GPIO_PORT 40 = Int.tdiv 40 32 ∧ GPIO_PIN 40 = Int.tmod 40 32 ∧
    0 ≤ GPIO_PIN 40 ∧ GPIO_PIN 40 < 32 ∧
    (40 : Int) = 32 * GPIO_PORT 40 + GPIO_PIN 40 ∧
    (GPIO_PORT 40 = 0 ↔ (40 : Int) < 32) ∧
    (GPIO_PORT 40 = 1 ↔ 32 ≤ (40 : Int) ∧ (40 : Int) < 64) ∧
    valid_pins.length = 2 ∧
    arrayGet valid_pins 0 = some 0xdbffffff ∧
    arrayGet valid_pins 1 = some 0xc0000f0c :=
  pin_encoding_and_masks 40 (by norm_num)

/-- C8: whenever hal_gpio_init_out or hal_gpio_init_in rejects its arguments
and returns -1, it has issued no port-driver call and the port/hardware
state is exactly what it was before the call. -/
theorem init_reject_leaves_state_unchanged (pin val pull : Int) (s : GpioState) :
    ((hal_gpio_init_out pin val s).ret = some (-1) →
      (hal_gpio_init_out pin val s).state = s ∧ (hal_gpio_init_out pin val s).trace = []) ∧
    ((hal_gpio_init_in pin pull s).ret = some (-1) →
      (hal_gpio_init_in pin pull s).state = s ∧ (hal_gpio_init_in pin pull s).trace = []) := by
  constructor
  · rw [hal_gpio_init_out_eq]
    by_cases hp : GPIO_PORT pin > GPIO_MAX_PORT
    · simp [hp]
    · rcases hm : arrayGet valid_pins (GPIO_PORT pin) with _ | m
      · simp [hp, hm]
      · by_cases hl : toN32 (GPIO_PIN pin) &&& m = 0
        · simp [hp, hm, hl]
        · by_cases ha : assertOkB pin
          · simp [hp, hm, hl, ha]
          · simp [hp, hm, hl, ha]
  · unfold hal_gpio_init_in
    by_cases hp : GPIO_PORT pin > GPIO_MAX_PORT
    · simp [hp]
    · rcases hm : arrayGet valid_pins (GPIO_PORT pin) with _ | m
      · simp [hp, hm]
      · by_cases hl : toN32 (GPIO_PIN pin) &&& m = 0
        · simp [hp, hm, hl]
        · by_cases hn : pull = GPIO_PULL_NONE
          · simp [hp, hm, hl, hn]
          · by_cases hu : pull = GPIO_PULL_UP
            · simp [hp, hm, hl, hn, hu, GPIO_PULL_NONE, GPIO_PULL_UP]
            · by_cases hd : pull = GPIO_PULL_DOWN
              · simp [hp, hm, hl, hn, hu, hd, GPIO_PULL_NONE, GPIO_PULL_UP, GPIO_PULL_DOWN]
              · simp [hp, hm, hl, hn, hu, hd]

theorem init_reject_leaves_state_unchanged_witness :
    ((hal_gpio_init_out 64 1 initState).state = initState ∧
      (hal_gpio_init_out 64 1 initState).trace = []) ∧
    ((hal_gpio_init_in 64 0 initState).state = initState ∧
      (hal_gpio_init_in 64 0 initState).trace = []) :=
  ⟨(init_reject_leaves_state_unchanged 64 1 0 initState).1 (by decide),
   (init_reject_leaves_state_unchanged 64 1 0 initState).2 (by decide)⟩

/-- Truncating division and remainder of a negative number by 32, expressed
through Euclidean division of its negation (which `omega` understands). -/
lemma tdiv_tmod_32_of_neg (pin : Int) (h : pin < 0) :
    Int.tdiv pin 32 = -((-pin) / 32) ∧ Int.tmod pin 32 = -((-pin) % 32) := by
  have h1 := Int.neg_tdiv (-pin) 32
  rw [Int.neg_neg] at h1
  have h2 := tmod_neg_left (-pin) 32
  rw [Int.neg_neg] at h2
  have h3 : Int.tdiv (-pin) 32 = (-pin) / 32 := Int.tdiv_eq_ediv (by omega) (by norm_num)
  have h4 : Int.tmod (-pin) 32 = (-pin) % 32 := Int.tmod_eq_emod (by omega) (by norm_num)
  exact ⟨by rw [h1, h3], by rw [h2, h4]⟩

/-- The 32-bit pattern of a value in `(-32, 0)` has bit 31 set, so ANDing it
with `valid_pins[0] = 0xdbffffff` (whose bit 31 is set) is nonzero: the
broken validity check of the init functions accepts every such value. -/
lemma toN32_neg_small_land (x : Int) (h1 : -32 < x) (h2 : x < 0) :
    toN32 x &&& (0xdbffffff : Nat) ≠ 0 := by
  intro hz
  have hdiv : toN32 x / 2147483648 = 1 := by
    unfold toN32
    omega
  have htb : Nat.testBit (toN32 x) 31 = true := by
    rw [Nat.testBit_to_div_mod]
    have e : (2 : Nat) ^ 31 = 2147483648 := by norm_num
    rw [e, hdiv]
    decide
  have hb : ((toN32 x) &&& (0xdbffffff : Nat)).testBit 31 = false := by
    rw [hz]
    exact Nat.zero_testBit _
  rw [Nat.testBit_and, htb] at hb
  have hm : Nat.testBit (0xdbffffff : Nat) 31 = true := by decide
  rw [hm] at hb
  exact Bool.noConfusion hb

/-- C9: neither init function guards the lower bound of the port index: for
every negative pin the computed port pin/32 is at most 0, so it passes the
`port > GPIO_MAX_PORT` check; a pin at or below -32 indexes `valid_pins`
out of bounds (no defined table entry), and in no case is the call rejected
with -1 up front. -/
theorem negative_pin_not_rejected (pin : Int) (h : pin < 0) :
    GPIO_PORT pin ≤ GPIO_MAX_PORT ∧ GPIO_PORT pin ≤ 0 ∧
    (pin ≤ -32 → arrayGet valid_pins (GPIO_PORT pin) = none) ∧
    ∀ (val : Int) (s : GpioState),
      (hal_gpio_init_out pin val s).ret ≠ some (-1) ∧
      (hal_gpio_init_in pin GPIO_PULL_NONE s).ret ≠ some (-1) := by
  obtain ⟨hd, hm⟩ := tdiv_tmod_32_of_neg pin h
  have hPORT : GPIO_PORT pin = Int.tdiv pin 32 := rfl
  have hPIN : GPIO_PIN pin = Int.tmod pin 32 := rfl
  have hport0 : GPIO_PORT pin ≤ 0 := by rw [hPORT]; omega
  have hnotbig : ¬ GPIO_PORT pin > GPIO_MAX_PORT := by
    unfold GPIO_MAX_PORT
    omega
  refine ⟨by unfold GPIO_MAX_PORT; omega, hport0, ?_, ?_⟩
  · intro hle
    rw [arrayGet_valid_pins]
    have hneg : GPIO_PORT pin ≤ -1 := by rw [hPORT]; omega
    rw [if_neg (by omega), if_neg (by omega)]
  · intro val s
    by_cases hbig : pin ≤ -32
    · have hno : arrayGet valid_pins (GPIO_PORT pin) = none := by
        rw [arrayGet_valid_pins]
        have hneg : GPIO_PORT pin ≤ -1 := by rw [hPORT]; omega
        rw [if_neg (by omega), if_neg (by omega)]
      constructor
      · rw [hal_gpio_init_out_eq, if_neg hnotbig, hno]
        simp
      · unfold hal_gpio_init_in
        rw [if_neg hnotbig, hno]
        simp
    · have hport' : GPIO_PORT pin = 0 := by rw [hPORT]; omega
      have hpin' : GPIO_PIN pin = pin := by rw [hPIN]; omega
      have hlookup : arrayGet valid_pins (GPIO_PORT pin) = some 0xdbffffff := by
        rw [arrayGet_valid_pins, hport']
        simp
      have hland : toN32 (GPIO_PIN pin) &&& (0xdbffffff : Nat) ≠ 0 := by
        rw [hpin']
        exact toN32_neg_small_land pin (by omega) h
      constructor
      · rw [hal_gpio_init_out_eq, if_neg hnotbig, hlookup]
        dsimp only
        rw [if_neg hland]
        by_cases ha : assertOkB pin
        · simp [ha]
        · simp [ha]
      · unfold hal_gpio_init_in
        rw [if_neg hnotbig, hlookup]
        dsimp only
        rw [if_neg hland]
        simp [GPIO_PULL_NONE]

theorem negative_pin_not_rejected_witness :
    GPIO_PORT (-40) ≤ GPIO_MAX_PORT ∧ GPIO_PORT (-40) ≤ 0 ∧
    arrayGet valid_pins (GPIO_PORT (-40)) = none ∧
    (hal_gpio_init_out (-40) 1 initState).ret ≠ some (-1) ∧
    (hal_gpio_init_in (-40) GPIO_PULL_NONE initState).ret ≠ some (-1) := by
  have h := negative_pin_not_rejected (-40) (by norm_num)
  exact ⟨h.1, h.2.1, h.2.2.1 (by norm_num), (h.2.2.2 1 initState).1, (h.2.2.2 1 initState).2⟩

/-- Behaviour of `hal_gpio_toggle` on a valid pin: read, drive the opposite
level, read again. -/
lemma hal_gpio_toggle_valid (pin : Int) (s : GpioState) (h : validPin pin) :
    hal_gpio_toggle pin s =
      { ret := some (if s.level (GPIO_PORT pin, GPIO_PIN pin) then 0 else 1),
        state := port_pin_set_output_level pin (! s.level (GPIO_PORT pin, GPIO_PIN pin)) s,
        trace := [PortCall.getLevel pin,
          PortCall.setLevel pin (! s.level (GPIO_PORT pin, GPIO_PIN pin)),
          PortCall.getLevel pin] } := by
  have ha := assertOkB_of_validPin pin h
  unfold hal_gpio_toggle
  by_cases hl : s.level (GPIO_PORT pin, GPIO_PIN pin)
  · simp only [hal_gpio_read_eq, hal_gpio_set_eq, hal_gpio_clear_eq, ha, if_true,
      port_pin_get_input_level, hl, port_pin_set_output_level]
    simp [Function.update_same, hl]
  · simp only [hal_gpio_read_eq, hal_gpio_set_eq, hal_gpio_clear_eq, ha, if_true,
      port_pin_get_input_level, port_pin_set_output_level]
    simp [Function.update_same, hl]

/-- C7: on a valid pin `hal_gpio_toggle` inverts the pin's output level and
returns the new level (1 when the prior read was 0, 0 when it was nonzero);
toggling twice restores the level map exactly. -/
theorem toggle_inverts_level (pin : Int) (s : GpioState) (h : validPin pin) :
    (hal_gpio_toggle pin s).ret =
      some (if s.level (GPIO_PORT pin, GPIO_PIN pin) then 0 else 1) ∧
    (hal_gpio_toggle pin s).state.level (GPIO_PORT pin, GPIO_PIN pin) =
      ! s.level (GPIO_PORT pin, GPIO_PIN pin) ∧
    ∀ k, (hal_gpio_toggle pin ((hal_gpio_toggle pin s).state)).state.level k = s.level k := by
  rw [hal_gpio_toggle_valid pin s h]
  refine ⟨rfl, ?_, ?_⟩
  · simp [port_pin_set_output_level, Function.update_same]
  · intro k
    rw [hal_gpio_toggle_valid pin _ h]
    by_cases hk : k = (GPIO_PORT pin, GPIO_PIN pin)
    · subst hk
      simp [port_pin_set_output_level, Function.update_same]
    · simp [port_pin_set_output_level, Function.update_noteq hk]

theorem toggle_inverts_level_witness :
    (hal_gpio_toggle 1 initState).ret = some 1 ∧
    (hal_gpio_toggle 1 initState).state.level (GPIO_PORT 1, GPIO_PIN 1) =
      ! initState.level (GPIO_PORT 1, GPIO_PIN 1) ∧
    (hal_gpio_toggle 1 ((hal_gpio_toggle 1 initState).state)).state.level (0, 1) =
      initState.level (0, 1) := by
  have h := toggle_inverts_level 1 initState (by decide)
  refine ⟨?_, h.2.1, h.2.2 (0, 1)⟩
  rw [h.1]
  decide

lemma addressedTo_set (pin : Int) (s : GpioState) : addressedTo (hal_gpio_set pin s) pin s := by
  rw [hal_gpio_set_eq]
  by_cases ha : assertOkB pin
  · refine ⟨?_, ?_⟩
    · simp [ha, callPin]
    · intro k hk
      simp [ha, port_pin_set_output_level, Function.update_noteq hk]
  · refine ⟨?_, ?_⟩
    · simp [ha]
    · intro k hk
      simp [ha]

lemma addressedTo_clear (pin : Int) (s : GpioState) : addressedTo (hal_gpio_clear pin s) pin s := by
  rw [hal_gpio_clear_eq]
  by_cases ha : assertOkB pin
  · refine ⟨?_, ?_⟩
    · simp [ha, callPin]
    · intro k hk
      simp [ha, port_pin_set_output_level, Function.update_noteq hk]
  · refine ⟨?_, ?_⟩
    · simp [ha]
    · intro k hk
      simp [ha]

lemma addressedTo_read (pin : Int) (s : GpioState) : addressedTo (hal_gpio_read pin s) pin s := by
  rw [hal_gpio_read_eq]
  by_cases ha : assertOkB pin
  · exact ⟨by simp [ha, callPin], by intro k hk; simp [ha]⟩
  · exact ⟨by simp [ha], by intro k hk; simp [ha]⟩

lemma addressedTo_init_out (pin val : Int) (s : GpioState) :
    addressedTo (hal_gpio_init_out pin val s) pin s := by
  rw [hal_gpio_init_out_eq]
  by_cases hp : GPIO_PORT pin > GPIO_MAX_PORT
  · exact ⟨by simp [hp], by intro k hk; simp [hp]⟩
  · rcases hm : arrayGet valid_pins (GPIO_PORT pin) with _ | m
    · exact ⟨by simp [hp, hm], by intro k hk; simp [hp, hm]⟩
    · by_cases hl : toN32 (GPIO_PIN pin) &&& m = 0
      · exact ⟨by simp [hp, hm, hl], by intro k hk; simp [hp, hm, hl]⟩
      · by_cases ha : assertOkB pin
        · refine ⟨?_, ?_⟩
          · simp [hp, hm, hl, ha, callPin]
          · intro k hk
            simp [hp, hm, hl, ha, port_pin_set_output_level, port_pin_set_config,
              Function.update_noteq hk]
        · refine ⟨?_, ?_⟩
          · simp [hp, hm, hl, ha, callPin]
          · intro k hk
            simp [hp, hm, hl, ha, port_pin_set_config, Function.update_noteq hk]

lemma addressedTo_init_in (pin pull : Int) (s : GpioState) :
    addressedTo (hal_gpio_init_in pin pull s) pin s := by
  unfold hal_gpio_init_in
  by_cases hp : GPIO_PORT pin > GPIO_MAX_PORT
  · exact ⟨by simp [hp], by intro k hk; simp [hp]⟩
  · rcases hm : arrayGet valid_pins (GPIO_PORT pin) with _ | m
    · exact ⟨by simp [hp, hm], by intro k hk; simp [hp, hm]⟩
    · by_cases hl : toN32 (GPIO_PIN pin) &&& m = 0
      · exact ⟨by simp [hp, hm, hl], by intro k hk; simp [hp, hm, hl]⟩
      · by_cases hn : pull = GPIO_PULL_NONE
        · refine ⟨?_, ?_⟩
          · simp [hp, hm, hl, hn, callPin]
          · intro k hk
            simp [hp, hm, hl, hn, port_pin_set_config, Function.update_noteq hk]
        · by_cases hu : pull = GPIO_PULL_UP
          · refine ⟨?_, ?_⟩
            · simp [hp, hm, hl, hn, hu, GPIO_PULL_NONE, GPIO_PULL_UP, callPin]
            · intro k hk
              simp [hp, hm, hl, hn, hu, GPIO_PULL_NONE, GPIO_PULL_UP,
                port_pin_set_config, Function.update_noteq hk]
          · by_cases hd : pull = GPIO_PULL_DOWN
            · refine ⟨?_, ?_⟩
              · simp [hp, hm, hl, hn, hu, hd, GPIO_PULL_NONE, GPIO_PULL_UP,
                  GPIO_PULL_DOWN, callPin]
              · intro k hk
                simp [hp, hm, hl, hn, hu, hd, GPIO_PULL_NONE, GPIO_PULL_UP,
                  GPIO_PULL_DOWN, port_pin_set_config, Function.update_noteq hk]
            · exact ⟨by simp [hp, hm, hl, hn, hu, hd], by intro k hk; simp [hp, hm, hl, hn, hu, hd]⟩

/-- C4: each GPIO operation translates its pin into the (pin/32, pin % 32)
pair and issues its operation to the port driver addressed by that pair:
every driver call carries the pin, only the translated pair's state can
change, and a returning read reports exactly the translated pair's level. -/
theorem gpio_ops_translate_pin (pin val pull : Int) (s : GpioState) :
    addressedTo (hal_gpio_init_out pin val s) pin s ∧
    addressedTo (hal_gpio_init_in pin pull s) pin s ∧
    addressedTo (hal_gpio_set pin s) pin s ∧
    addressedTo (hal_gpio_clear pin s) pin s ∧
    addressedTo (hal_gpio_read pin s) pin s ∧
    ((hal_gpio_read pin s).ret = none ∨
      (hal_gpio_read pin s).ret =
        some (if s.level (GPIO_PORT pin, GPIO_PIN pin) then 1 else 0)) := by
  refine ⟨addressedTo_init_out pin val s, addressedTo_init_in pin pull s,
    addressedTo_set pin s, addressedTo_clear pin s, addressedTo_read pin s, ?_⟩
  rw [hal_gpio_read_eq]
  by_cases ha : assertOkB pin
  · right
    simp [ha, port_pin_get_input_level]
  · left
    simp [ha]

/-- C10: whenever hal_gpio_init_out(pin, val) returns 0, the configuration
and write sequence completed without any assertion failure, and the pin's
output level afterwards equals val: an immediately following hal_gpio_read
returns 1 when val was nonzero and 0 when val was 0. -/
theorem init_out_readback (pin val : Int) (s : GpioState)
    (h : (hal_gpio_init_out pin val s).ret = some 0) :
    (hal_gpio_read pin ((hal_gpio_init_out pin val s).state)).ret =
      some (if val = 0 then 0 else 1) := by
  rw [hal_gpio_init_out_eq] at h ⊢
  by_cases hp : GPIO_PORT pin > GPIO_MAX_PORT
  · rw [if_pos hp] at h
    simp at h
  · rw [if_neg hp] at h ⊢
    rcases hm : arrayGet valid_pins (GPIO_PORT pin) with _ | m
    · rw [hm] at h
      simp at h
    · rw [hm] at h
      dsimp only at h
      dsimp only
      by_cases hl : toN32 (GPIO_PIN pin) &&& m = 0
      · rw [if_pos hl] at h
        simp at h
      · rw [if_neg hl] at h ⊢
        by_cases ha : assertOkB pin
        · rw [if_pos ha] at h ⊢
          rw [hal_gpio_read_eq]
          dsimp only
          rw [if_pos ha]
          simp only [port_pin_get_input_level, port_pin_set_output_level,
            port_pin_set_config, Function.update_same]
          by_cases hv : val = 0
          · simp [hv]
          · simp [hv]
        · rw [if_neg ha] at h
          simp at h

theorem init_out_readback_witness :
    (hal_gpio_read 1 ((hal_gpio_init_out 1 1 initState).state)).ret = some 1 := by
  have h := init_out_readback 1 1 initState (by decide)
  simpa using h
